import Mathlib

/-!
Shallow embedding of mkmik/flightclub (main.go, query.go): a Flight SQL CLI
that executes one query, renders record batches as a text table, and reports
timings.  Definitions are translated from the Go source; external library
behavior (Go time.Duration.String, fmt.Sprint of float64, net/url parsing of
scheme://host[:port]) is modelled faithfully where the source relies on it.
-/

/-- Go errors as values: the distinguished io.EOF sentinel, or any other
error carrying its message (all errors this program constructs are of the
message kind). -/
inductive GoError
  | ioEOF
  | msg (s : String)
deriving DecidableEq, Repr

/-- error.Error(): the message text of a Go error (io.EOF prints "EOF"). -/
def GoError.message : GoError → String
  | .ioEOF => "EOF"
  | .msg s => s

/-- Models Go %q formatting for strings containing no characters that need
escaping (Arrow type names and URL schemes are plain ASCII identifiers). -/
def goQuote (s : String) : String := "\"" ++ s ++ "\""

/-- arrow.TimeUnit: the four Arrow time units. -/
inductive TimeUnit
  | second
  | millisecond
  | microsecond
  | nanosecond
deriving DecidableEq, Repr

/-- arrow.TimeUnit.Multiplier(): nanoseconds per unit, as Go time.Duration. -/
def TimeUnit.multiplier : TimeUnit → Int
  | .second => 1000000000
  | .millisecond => 1000000
  | .microsecond => 1000
  | .nanosecond => 1

/-- Go int64 wraparound of an unbounded integer (two's complement). -/
def wrapInt64 (x : Int) : Int :=
  (x + 9223372036854775808) % 18446744073709551616 - 9223372036854775808

/-- Inner digit loop of Go time.Duration formatting (time.fmtFrac): emits up
to `prec` low-order decimal digits of `v`, skipping trailing zeros; digits
are produced least-significant first and consed in front of the
accumulator.  Returns the remaining value, the digit list, and whether any
digit was printed. -/
def fmtFracGo : Nat → Nat → List Char → Bool → Nat × List Char × Bool
  | 0, v, acc, pr => (v, acc, pr)
  | p + 1, v, acc, pr =>
    let d := v % 10
    let pr2 := pr || decide (d ≠ 0)
    let acc2 := if pr2 then Char.ofNat (48 + d) :: acc else acc
    fmtFracGo p (v / 10) acc2 pr2

/-- time.fmtFrac: fractional part of a duration, "" when all zero,
otherwise "." followed by the digits with trailing zeros removed.  Also
returns the value shifted right by `prec` digits. -/
def fmtFrac (v prec : Nat) : Nat × String :=
  let r := fmtFracGo prec v [] false
  (r.1, if r.2.2 then String.mk ('.' :: r.2.1) else "")

/-- Go time.Duration.String() on a signed nanosecond count, following the
algorithm of the Go standard library: sub-second values use ns/µs/ms with a
trimmed fraction, otherwise seconds with up to 9 fractional digits, then
minutes and hours. -/
def goDurationString (d : Int) : String :=
  let u := d.natAbs
  let core :=
    if u < 1000000000 then
      if u = 0 then "0s"
      else
        let ps :=
          if u < 1000 then ((0 : Nat), "ns")
          else if u < 1000000 then (3, "µs")
          else (6, "ms")
        let vf := fmtFrac u ps.1
        toString vf.1 ++ vf.2 ++ ps.2
    else
      let vf := fmtFrac u 9
      let v := vf.1
      let base := toString (v % 60) ++ vf.2 ++ "s"
      let v2 := v / 60
      if v2 > 0 then
        let withM := toString (v2 % 60) ++ "m" ++ base
        let v3 := v2 / 60
        if v3 > 0 then toString v3 ++ "h" ++ withM else withM
      else base
  if d < 0 then "-" ++ core else core

/-- An exact rational as an unnormalized numerator/denominator pair with
positive denominator, used to carry the exact value of a Go float64 and to
run the decimal-conversion arithmetic by plain integer operations. -/
structure Frac where
  num : Int
  den : Int
deriving DecidableEq, Repr

/-- Embed an integer. -/
def Frac.ofInt (n : Int) : Frac := ⟨n, 1⟩

/-- Exact product. -/
def Frac.mul (a b : Frac) : Frac := ⟨a.num * b.num, a.den * b.den⟩

/-- Value equality (cross multiplication; denominators are positive). -/
def Frac.veq (a b : Frac) : Bool := a.num * b.den = b.num * a.den

/-- Value strict order. -/
def Frac.lt (a b : Frac) : Bool := a.num * b.den < b.num * a.den

/-- Value order. -/
def Frac.le (a b : Frac) : Bool := a.num * b.den ≤ b.num * a.den

/-- b^e as an exact fraction, for an integer exponent. -/
def qpowB (b : Nat) (e : Int) : Frac :=
  if 0 ≤ e then ⟨(b : Int) ^ e.toNat, 1⟩ else ⟨1, (b : Int) ^ (-e).toNat⟩

/-- Fuel-driven base-b logarithm (structural recursion so that concrete
instances reduce inside the kernel). -/
def natLogAux (b : Nat) : Nat → Nat → Nat
  | 0, _ => 0
  | fuel + 1, n => if n < b then 0 else natLogAux b fuel (n / b) + 1

/-- Floor of log base b (b ≥ 2) of n, 0 when n = 0. -/
def natLog (b n : Nat) : Nat := natLogAux b n n

/-- For q > 0, the exponent e with b^e ≤ q < b^(e+1); computed from digit
lengths of numerator and denominator and corrected by comparison. -/
def qExpBase (b : Nat) (q : Frac) : Int :=
  let e0 : Int := (natLog b q.num.natAbs : Int) - (natLog b q.den.natAbs : Int)
  let e1 := if (qpowB b (e0 + 1)).le q then e0 + 1 else e0
  if q.lt (qpowB b e1) then e1 - 1 else e1

/-- Round a rational to the nearest integer, ties to even (IEEE-754 default
rounding, also used for correctly rounded decimal conversion). -/
def roundHalfEven (q : Frac) : Int :=
  let f := q.num.fdiv q.den
  let rem := q.num - f * q.den
  if 2 * rem < q.den then f
  else if q.den < 2 * rem then f + 1
  else if f % 2 = 0 then f else f + 1

/-- The IEEE-754 binary64 value nearest to q (round to nearest, ties to
even), for q in the normal finite range; models how a Go float64 relates to
the exact rational it stores. -/
def roundToFloat64 (q : Frac) : Frac :=
  if q.num = 0 then ⟨0, 1⟩
  else
    let s : Int := if q.num < 0 then -1 else 1
    let a : Frac := ⟨s * q.num, q.den⟩
    let e := qExpBase 2 a
    let m := roundHalfEven (a.mul (qpowB 2 (52 - e)))
    let me := if m = 9007199254740992 then ((4503599627370496 : Int), e + 1) else (m, e)
    (Frac.ofInt (s * me.1)).mul (qpowB 2 (me.2 - 52))

/-- For q > 0, the n-significant-digit decimal nearest to q: returns
(D, e) with D an n-digit integer and the represented value D·10^(e-n+1),
where e is the decimal exponent of the leading digit. -/
def roundSig (q : Frac) (n : Nat) : Int × Int :=
  let e := qExpBase 10 q
  let D := roundHalfEven (q.mul (qpowB 10 ((n : Int) - 1 - e)))
  if D = 10 ^ n then (10 ^ (n - 1), e + 1) else (D, e)

/-- Search for the shortest decimal digit string that converts back to
exactly the double q (Go strconv shortest formatting, as used by
fmt.Sprint on float64); tries 1 through 17 significant digits. -/
def shortestSigAux (q : Frac) : Nat → Nat → Int × Int
  | 0, n => roundSig q n
  | fuel + 1, n =>
    let De := roundSig q n
    let cand : Frac := (Frac.ofInt De.1).mul (qpowB 10 (De.2 - (n : Int) + 1))
    if (roundToFloat64 cand).veq q then De else shortestSigAux q fuel (n + 1)

/-- Shortest round-tripping significant digits of a positive double. -/
def shortestSig (q : Frac) : Int × Int := shortestSigAux q 17 1

/-- A run of ASCII zero digits. -/
def decZeros (k : Nat) : String := String.mk (List.replicate k '0')

/-- Fixed-point (%f-style) layout of digit string ds with leading-digit
decimal exponent e. -/
def formatFixedPoint (ds : String) (e : Int) : String :=
  let n : Int := ds.length
  if n - 1 ≤ e then ds ++ decZeros (e - (n - 1)).toNat
  else if 0 ≤ e then ds.take (e.toNat + 1) ++ "." ++ ds.drop (e.toNat + 1)
  else "0." ++ decZeros ((-e).toNat - 1) ++ ds

/-- Scientific (%e-style) layout of digit string ds with exponent e, with
Go's at-least-two-digit exponent field. -/
def formatSci (ds : String) (e : Int) : String :=
  let mant := if ds.length = 1 then ds else ds.take 1 ++ "." ++ ds.drop 1
  let esign := if e < 0 then "-" else "+"
  let ea := (if e < 0 then -e else e).toNat
  let estr := if ea < 10 then "0" ++ toString ea else toString ea
  mant ++ "e" ++ esign ++ estr

/-- fmt.Sprint of a Go float64 (strconv.FormatFloat with 'g' and shortest
precision): shortest round-tripping digits, fixed-point layout unless the
decimal exponent is below -4 or at least 21.  The argument is the exact
rational value of the (finite) double. -/
def goFormatFloat64 (q : Frac) : String :=
  if q.num = 0 then "0"
  else
    let sign := if q.num < 0 then "-" else ""
    let a : Frac := if q.num < 0 then ⟨-q.num, q.den⟩ else q
    let De := shortestSig a
    let ds := toString De.1.toNat
    let e := De.2
    sign ++ (if e < -4 ∨ 21 ≤ e then formatSci ds e else formatFixedPoint ds e)

/-- One Arrow column as seen by renderText's type switch: each supported
dynamic array type carries its per-row cells, a cell being none when the
row is null.  Signed integer widths carry Int values, unsigned widths Nat
values, float64 the exact rational value of the double, duration its raw
int64 count plus the column's time unit.  `unsupported` stands for any
dynamic type outside the switch, carrying the DataType().Name() used in
the error message. -/
inductive ArrowColumn
  | boolean (cells : List (Option Bool))
  | int8 (cells : List (Option Int))
  | int16 (cells : List (Option Int))
  | int32 (cells : List (Option Int))
  | int64 (cells : List (Option Int))
  | uint8 (cells : List (Option Nat))
  | uint16 (cells : List (Option Nat))
  | uint32 (cells : List (Option Nat))
  | uint64 (cells : List (Option Nat))
  | float64 (cells : List (Option Frac))
  | string (cells : List (Option String))
  | duration (u : TimeUnit) (cells : List (Option Int))
  | unsupported (typeName : String) (cells : List (Option Unit))

/-- Shared cell access for renderText: the source checks column.IsNull(row)
before the type switch, so every branch first yields "NULL" on a null
cell; a row index out of range is a Go panic, modelled as an error. -/
def renderCell {α : Type} (cells : List (Option α)) (row : Nat)
    (k : α → Except GoError String) : Except GoError String :=
  match cells.get? row with
  | none => .error (.msg "index out of range")
  | some none => .ok "NULL"
  | some (some v) => k v

/-- renderText (query.go): canonical display string of one cell, or an
error naming the column's type when the dynamic type is unsupported. -/
def renderText (column : ArrowColumn) (row : Nat) : Except GoError String :=
  match column with
  | .boolean cells => renderCell cells row (fun b => .ok (if b then "t" else "f"))
  | .int8 cells => renderCell cells row (fun v => .ok (toString v))
  | .int16 cells => renderCell cells row (fun v => .ok (toString v))
  | .int32 cells => renderCell cells row (fun v => .ok (toString v))
  | .int64 cells => renderCell cells row (fun v => .ok (toString v))
  | .uint8 cells => renderCell cells row (fun v => .ok (toString v))
  | .uint16 cells => renderCell cells row (fun v => .ok (toString v))
  | .uint32 cells => renderCell cells row (fun v => .ok (toString v))
  | .uint64 cells => renderCell cells row (fun v => .ok (toString v))
  | .float64 cells => renderCell cells row (fun v => .ok (goFormatFloat64 v))
  | .string cells => renderCell cells row (fun s => .ok s)
  | .duration u cells =>
    renderCell cells row (fun v => .ok (goDurationString (wrapInt64 (v * u.multiplier))))
  | .unsupported typeName cells =>
    renderCell cells row (fun _ => .error (.msg ("unsupported arrow type " ++ goQuote typeName)))

/-- column.IsNull(row): the cell at `row` exists and is null. -/
def ArrowColumn.isNullAt (column : ArrowColumn) (row : Nat) : Bool :=
  match column with
  | .boolean cells => (cells.get? row).elim false Option.isNone
  | .int8 cells => (cells.get? row).elim false Option.isNone
  | .int16 cells => (cells.get? row).elim false Option.isNone
  | .int32 cells => (cells.get? row).elim false Option.isNone
  | .int64 cells => (cells.get? row).elim false Option.isNone
  | .uint8 cells => (cells.get? row).elim false Option.isNone
  | .uint16 cells => (cells.get? row).elim false Option.isNone
  | .uint32 cells => (cells.get? row).elim false Option.isNone
  | .uint64 cells => (cells.get? row).elim false Option.isNone
  | .float64 cells => (cells.get? row).elim false Option.isNone
  | .string cells => (cells.get? row).elim false Option.isNone
  | .duration _ cells => (cells.get? row).elim false Option.isNone
  | .unsupported _ cells => (cells.get? row).elim false Option.isNone

/-- Decidable equality of Except values, for evaluating the embedding on
concrete inputs. -/
instance {ε α : Type} [DecidableEq ε] [DecidableEq α] : DecidableEq (Except ε α) := fun a b =>
  match a, b with
  | .ok x, .ok y =>
    match decEq x y with
    | .isTrue h => .isTrue (by rw [h])
    | .isFalse h => .isFalse (by intro hc; cases hc; exact h rfl)
  | .error x, .error y =>
    match decEq x y with
    | .isTrue h => .isTrue (by rw [h])
    | .isFalse h => .isFalse (by intro hc; cases hc; exact h rfl)
  | .ok _, .error _ => .isFalse (by intro hc; cases hc)
  | .error _, .ok _ => .isFalse (by intro hc; cases hc)

/-- arrow.Record as printInfo consumes it: a row count plus the named
columns (record.ColumnName(c) and record.Column(c)). -/
structure ArrowRecord where
  numRows : Nat
  fields : List (String × ArrowColumn)

/-- getHeader (query.go): the column names of a record, in column order. -/
def getHeader (record : ArrowRecord) : List String :=
  record.fields.map Prod.fst

/-- Inner column loop of printRecord: the rendered cells of row r, or the
first rendering error (the partially built row is discarded). -/
def renderRow (fields : List (String × ArrowColumn)) (r : Nat) : Except GoError (List String) :=
  match fields with
  | [] => .ok []
  | f :: rest =>
    match renderText f.2 r with
    | .error e => .error e
    | .ok s =>
      match renderRow rest r with
      | .error e => .error e
      | .ok row => .ok (s :: row)

/-- Row loop of printRecord over the given row indices: the rows appended
to the table before any failure, plus the first error if one occurred. -/
def printRecordGo (record : ArrowRecord) : List Nat → List (List String) × Option GoError
  | [] => ([], none)
  | r :: rest =>
    match renderRow record.fields r with
    | .error e => ([], some e)
    | .ok row =>
      let tail := printRecordGo record rest
      (row :: tail.1, tail.2)

/-- printRecord (query.go): renders every row of the record into table
rows; rows before the first failing row are still appended. -/
def printRecord (record : ArrowRecord) : List (List String) × Option GoError :=
  printRecordGo record (List.range record.numRows)

/-- One call made on the tablewriter table, in order. -/
inductive TableOp
  | append (row : List String)
  | setHeader (h : List String)
  | setFooter (h : List String)
  | render
deriving DecidableEq, Repr

/-- A flight record stream as printInfo drains it: the records produced by
reader.Next(), then the terminal reader.Err() (none models a nil error). -/
structure FlightReader where
  batches : List ArrowRecord
  termErr : Option GoError

/-- One endpoint of the FlightInfo: the outcome of c.DoGet on its ticket
and the elapsed time of that call (nanoseconds). -/
structure FlightEndpoint where
  doGet : Except GoError FlightReader
  doGetDur : Int

/-- Timings (query.go): the three accumulated phases, in nanoseconds. -/
structure Timings where
  warmup : Int
  execute : Int
  doGet : Int
deriving DecidableEq, Repr

/-- Timings.Add: pairwise addition of the three fields (the Go method
mutates the receiver and returns the sum; modelled as the sum). -/
def Timings.add (t other : Timings) : Timings :=
  ⟨t.warmup + other.warmup, t.execute + other.execute, t.doGet + other.doGet⟩

/-- Timings.Total: sum of the three phases. -/
def Timings.total (t : Timings) : Int :=
  t.warmup + t.execute + t.doGet

/-- Everything observable about one printInfo call: the ordered calls made
on the table writer (the deferred Render included), the returned Timings
and error (Go returns Timings{} alongside a non-nil error), the final
value of the header variable and of totalRows, and how many endpoints had
DoGet called (opened) respectively were fully drained (drained). -/
structure PrintInfoResult where
  trace : List TableOp
  timings : Timings
  err : Option GoError
  header : List String
  totalRows : Nat
  opened : Nat
  drained : Nat

/-- The reader.Next() loop of printInfo: for each record, bump totalRows,
overwrite header with this record's column names, and append its rendered
rows; stops at the first rendering error.  Returns the extended trace, the
header, the row total, and the error if any. -/
def drainReader : List ArrowRecord → List TableOp → List String → Nat →
    List TableOp × List String × Nat × Option GoError
  | [], trace, hdr, total => (trace, hdr, total, none)
  | record :: rest, trace, hdr, total =>
    match (printRecord record).2 with
    | some e => (trace ++ (printRecord record).1.map TableOp.append, getHeader record,
        total + record.numRows, some e)
    | none => drainReader rest (trace ++ (printRecord record).1.map TableOp.append)
        (getHeader record) (total + record.numRows)

/-- The code after the endpoint loop: SetHeader, the footer decision
against the terminal height, and the deferred Render; returns the DoGet
total as the Timings. -/
def finishTable (height : Int) (trace : List TableOp) (hdr : List String)
    (total : Nat) (dur : Int) (opened drained : Nat) : PrintInfoResult :=
  let trace2 := trace ++ ([TableOp.setHeader hdr] ++
    (if (total : Int) + 4 ≥ height then [TableOp.setFooter hdr] else []) ++ [TableOp.render])
  ⟨trace2, ⟨0, 0, dur⟩, none, hdr, total, opened, drained⟩

/-- The endpoint loop of printInfo.  A DoGet failure returns the wrapped
error; a rendering error propagates; a terminal io.EOF breaks out of the
whole endpoint loop; any other terminal error is returned; the deferred
table.Render() runs on every exit path. -/
def printInfoLoop (height : Int) : List FlightEndpoint → List TableOp → List String →
    Nat → Int → Nat → Nat → PrintInfoResult
  | [], trace, hdr, total, dur, opened, drained =>
    finishTable height trace hdr total dur opened drained
  | ep :: rest, trace, hdr, total, dur, opened, drained =>
    match ep.doGet with
    | .error e =>
      ⟨trace ++ [TableOp.render], ⟨0, 0, 0⟩,
        some (.msg ("getting ticket failed: " ++ e.message)), hdr, total, opened + 1, drained⟩
    | .ok reader =>
      match (drainReader reader.batches trace hdr total).2.2.2 with
      | some e =>
        ⟨(drainReader reader.batches trace hdr total).1 ++ [TableOp.render], ⟨0, 0, 0⟩, some e,
          (drainReader reader.batches trace hdr total).2.1,
          (drainReader reader.batches trace hdr total).2.2.1, opened + 1, drained⟩
      | none =>
        match reader.termErr with
        | some GoError.ioEOF =>
          finishTable height (drainReader reader.batches trace hdr total).1
            (drainReader reader.batches trace hdr total).2.1
            (drainReader reader.batches trace hdr total).2.2.1
            (dur + ep.doGetDur) (opened + 1) (drained + 1)
        | some (GoError.msg s) =>
          ⟨(drainReader reader.batches trace hdr total).1 ++ [TableOp.render], ⟨0, 0, 0⟩,
            some (.msg s), (drainReader reader.batches trace hdr total).2.1,
            (drainReader reader.batches trace hdr total).2.2.1, opened + 1, drained + 1⟩
        | none => printInfoLoop height rest (drainReader reader.batches trace hdr total).1
            (drainReader reader.batches trace hdr total).2.1
            (drainReader reader.batches trace hdr total).2.2.1
            (dur + ep.doGetDur) (opened + 1) (drained + 1)

/-- printInfo (query.go), over the FlightInfo's endpoint list and the
detected terminal height. -/
def printInfo (height : Int) (endpoints : List FlightEndpoint) : PrintInfoResult :=
  printInfoLoop height endpoints [] [] 0 0 0 0

/-- printQuery (query.go): on Execute failure returns (Timings{}, err)
with no table writer constructed; otherwise runs printInfo and adds the
execute duration to its timings.  The first component is the table trace
(empty when printInfo never ran). -/
def printQuery (height : Int) (executeRes : Except GoError (List FlightEndpoint))
    (executeDur : Int) : List TableOp × Timings × Option GoError :=
  match executeRes with
  | .error e => ([], ⟨0, 0, 0⟩, some e)
  | .ok endpoints =>
    let r := printInfo height endpoints
    match r.err with
    | some e => (r.trace, ⟨0, 0, 0⟩, some e)
    | none => (r.trace, r.timings.add ⟨0, executeDur, 0⟩, none)

/-- Transport credential variants built by parseAddr. -/
inductive TransportCred
  | insecure
  | tls
deriving DecidableEq, Repr

/-- The parts of a parsed URL that parseAddr reads: u.Scheme, u.Hostname()
and u.Port() (empty string when no port is present). -/
structure GoURL where
  scheme : String
  hostname : String
  port : String
deriving DecidableEq, Repr

/-- Does the character list start with the given pattern? -/
def startsWithL : List Char → List Char → Bool
  | [], _ => true
  | _ :: _, [] => false
  | p :: ps, c :: cs => p = c && startsWithL ps cs

/-- Fuel-driven split of a character list on a nonempty pattern (structural
recursion so that concrete instances reduce inside the kernel). -/
def splitOnLAux (pat : List Char) : Nat → List Char → List Char → List (List Char)
  | 0, cs, acc => [acc.reverse ++ cs]
  | fuel + 1, cs, acc =>
    match cs with
    | [] => [acc.reverse]
    | c :: rest =>
      if startsWithL pat cs then
        acc.reverse :: splitOnLAux pat fuel (cs.drop pat.length) []
      else splitOnLAux pat fuel rest (c :: acc)

/-- Split a string on every occurrence of a nonempty separator. -/
def goSplit (s pat : String) : List String :=
  (splitOnLAux pat.data (s.length + 1) s.data []).map String.mk

/-- Models net/url.Parse restricted to the scheme://host[:port] shape this
program accepts: splits scheme at "://" and an optional numeric port at
":"; anything else is a parse error. -/
def urlParse (s : String) : Except GoError GoURL :=
  match goSplit s "://" with
  | [scheme, rest] =>
    match goSplit rest ":" with
    | [host] => .ok ⟨scheme, host, ""⟩
    | [host, port] =>
      if port.length > 0 && port.data.all Char.isDigit then .ok ⟨scheme, host, port⟩
      else .error (.msg ("parse " ++ goQuote s ++ ": invalid port"))
    | _ => .error (.msg ("parse " ++ goQuote s ++ ": invalid URL"))
  | _ => .error (.msg ("parse " ++ goQuote s ++ ": invalid URL"))

/-- The body of parseAddr after url.Parse: default port 80 for http and
443 for https, join host and port, pick the credential by scheme, reject
every other scheme. -/
def parseAddrURL (u : GoURL) : Except GoError (String × TransportCred) :=
  let p := u.port
  let p2 := if p = "" then (if u.scheme = "https" then "443"
    else if u.scheme = "http" then "80" else p) else p
  let a := u.hostname ++ ":" ++ p2
  if u.scheme = "http" then .ok (a, TransportCred.insecure)
  else if u.scheme = "https" then .ok (a, TransportCred.tls)
  else .error (.msg ("unhandled schema " ++ goQuote u.scheme))

/-- parseAddr (main.go): parse the URL, then resolve address and
credentials. -/
def parseAddr (s : String) : Except GoError (String × TransportCred) :=
  match urlParse s with
  | .error e => .error e
  | .ok u => parseAddrURL u

/-- Is this table call a SetFooter? -/
def TableOp.isSetFooter : TableOp → Bool
  | .setFooter _ => true
  | _ => false

/-- Whether the trace of table calls ever set a footer. -/
def hasFooter (trace : List TableOp) : Bool :=
  trace.any TableOp.isSetFooter

/-- A reader all of whose records render without error. -/
def readerRendersOk (rd : FlightReader) : Prop :=
  ∀ record ∈ rd.batches, (printRecord record).2 = none

/-- An endpoint whose DoGet succeeds, whose stream ends with a nil
terminal error, and whose records all render. -/
def cleanEndpoint (ep : FlightEndpoint) : Prop :=
  ∃ rd, ep.doGet = .ok rd ∧ rd.termErr = none ∧ readerRendersOk rd

/-- The record batches behind an endpoint (empty when DoGet fails). -/
def endpointBatches (ep : FlightEndpoint) : List ArrowRecord :=
  match ep.doGet with
  | .ok rd => rd.batches
  | .error _ => []

/-- Helper: a null cell renders to "NULL" whatever the continuation. -/
theorem renderCell_isNull {α : Type} (cells : List (Option α)) (row : Nat)
    (k : α → Except GoError String)
    (h : (cells.get? row).elim false Option.isNone = true) :
    renderCell cells row k = .ok "NULL" := by
  unfold renderCell
  rcases hg : cells.get? row with _ | c
  · rw [hg] at h
    simp [Option.elim] at h
  · rw [hg] at h
    cases c with
    | none => rfl
    | some v => simp [Option.elim, Option.isNone] at h

/-- Helper: renderCell only fails with a message error when its
continuation does. -/
theorem renderCell_error_msg {α : Type} (cells : List (Option α)) (row : Nat)
    (k : α → Except GoError String)
    (hk : ∀ v e, k v = .error e → ∃ s, e = GoError.msg s)
    (e : GoError) (h : renderCell cells row k = .error e) : ∃ s, e = GoError.msg s := by
  unfold renderCell at h
  rcases hg : cells.get? row with _ | (_ | v) <;> rw [hg] at h
  · injection h with h2
    exact ⟨"index out of range", h2.symm⟩
  · simp at h
  · exact hk v e h

/-- C1: renderText produces the canonical strings: null cells render as
"NULL" whatever the column type; booleans as "t"/"f"; the duration
1,500,000 with microsecond unit as "1.5s" (raw value times the unit
multiplier, Go duration formatting); the 64-bit float 3.14 as "3.14";
strings verbatim; integers in default decimal. -/
theorem renderText_canonical :
    (∀ (col : ArrowColumn) (row : Nat), col.isNullAt row = true →
      renderText col row = .ok "NULL") ∧
    (∀ (cells : List (Option Bool)) (row : Nat), cells.get? row = some (some true) →
      renderText (.boolean cells) row = .ok "t") ∧
    (∀ (cells : List (Option Bool)) (row : Nat), cells.get? row = some (some false) →
      renderText (.boolean cells) row = .ok "f") ∧
    renderText (.duration .microsecond [some 1500000]) 0 = .ok "1.5s" ∧
    renderText (.float64 [some ⟨7070651414971679, 2251799813685248⟩]) 0 = .ok "3.14" ∧
    (∀ (cells : List (Option String)) (row : Nat) (s : String),
      cells.get? row = some (some s) → renderText (.string cells) row = .ok s) ∧
    (∀ (cells : List (Option Int)) (row : Nat) (n : Int),
      cells.get? row = some (some n) → renderText (.int64 cells) row = .ok (toString n)) ∧
    (∀ (cells : List (Option Nat)) (row : Nat) (n : Nat),
      cells.get? row = some (some n) → renderText (.uint64 cells) row = .ok (toString n)) := by
  refine ⟨?_, ?_, ?_, by decide, by decide, ?_, ?_, ?_⟩
  · intro col row h
    cases col <;> (simp only [ArrowColumn.isNullAt] at h; exact renderCell_isNull _ _ _ h)
  · intro cells row h
    show renderCell cells row _ = _
    unfold renderCell
    rw [h]
    rfl
  · intro cells row h
    show renderCell cells row _ = _
    unfold renderCell
    rw [h]
    rfl
  · intro cells row s h
    show renderCell cells row _ = _
    unfold renderCell
    rw [h]
  · intro cells row n h
    show renderCell cells row _ = _
    unfold renderCell
    rw [h]
  · intro cells row n h
    show renderCell cells row _ = _
    unfold renderCell
    rw [h]

/-- Witness for C1 at concrete cells. -/
theorem renderText_canonical_witness :
    renderText (.unsupported "decimal" [none]) 0 = .ok "NULL" ∧
    renderText (.boolean [some true]) 0 = .ok "t" ∧
    renderText (.boolean [some false]) 0 = .ok "f" ∧
    renderText (.string [some "abc"]) 0 = .ok "abc" ∧
    renderText (.int64 [some (-7)]) 0 = .ok (toString (-7 : Int)) ∧
    renderText (.uint64 [some 7]) 0 = .ok (toString (7 : Nat)) :=
  ⟨renderText_canonical.1 (.unsupported "decimal" [none]) 0 (by decide),
   renderText_canonical.2.1 [some true] 0 rfl,
   renderText_canonical.2.2.1 [some false] 0 rfl,
   renderText_canonical.2.2.2.2.2.1 [some "abc"] 0 "abc" rfl,
   renderText_canonical.2.2.2.2.2.2.1 [some (-7)] 0 (-7) rfl,
   renderText_canonical.2.2.2.2.2.2.2 [some 7] 0 7 rfl⟩

/-- C4: a non-null cell of an unsupported dynamic type makes renderText
fail with an error naming the type (no string is produced), and a
rendering failure inside printRecord propagates out of printInfo as its
returned error. -/
theorem renderText_unsupported_aborts :
    (∀ (typeName : String) (cells : List (Option Unit)) (row : Nat),
      cells.get? row = some (some ()) →
      renderText (.unsupported typeName cells) row
        = .error (.msg ("unsupported arrow type " ++ goQuote typeName))) ∧
    (∀ (record : ArrowRecord) (e : GoError) (height dur : Int),
      (printRecord record).2 = some e →
      (printInfo height [⟨.ok ⟨[record], none⟩, dur⟩]).err = some e) := by
  constructor
  · intro typeName cells row h
    show renderCell cells row _ = _
    unfold renderCell
    rw [h]
  · intro record e height dur h
    simp only [printInfo, printInfoLoop, drainReader, h]

/-- Witness for C4 on a one-cell record of a "decimal128" column. -/
theorem renderText_unsupported_aborts_witness :
    renderText (.unsupported "decimal128" [some ()]) 0
      = .error (.msg ("unsupported arrow type " ++ goQuote "decimal128")) ∧
    (printInfo 100 [⟨.ok ⟨[⟨1, [("v", .unsupported "decimal128" [some ()])]⟩], none⟩, 0⟩]).err
      = some (.msg ("unsupported arrow type " ++ goQuote "decimal128")) :=
  ⟨renderText_unsupported_aborts.1 "decimal128" [some ()] 0 rfl,
   renderText_unsupported_aborts.2 ⟨1, [("v", .unsupported "decimal128" [some ()])]⟩
     (.msg ("unsupported arrow type " ++ goQuote "decimal128")) 100 0 (by decide)⟩

/-- C8: Timings combine by pairwise addition of the three phase fields,
Total is their sum, and {Warmup 1s} + {Execute 2s, DoGet 3s} totals 6s
(durations in nanoseconds). -/
theorem timings_add_total :
    (∀ t other : Timings, t.add other =
      ⟨t.warmup + other.warmup, t.execute + other.execute, t.doGet + other.doGet⟩) ∧
    (∀ t : Timings, t.total = t.warmup + t.execute + t.doGet) ∧
    ((Timings.mk 1000000000 0 0).add (Timings.mk 0 2000000000 3000000000)).total
      = 6000000000 :=
  ⟨fun _ _ => rfl, fun _ => rfl, by decide⟩

/-- C9: when Execute fails, printQuery returns that error right away, with
zero-valued timings and an empty table trace (no table writer was ever
constructed). -/
theorem printQuery_execute_error :
    ∀ (height : Int) (e : GoError) (executeDur : Int),
      printQuery height (.error e) executeDur = ([], ⟨0, 0, 0⟩, some e) :=
  fun _ _ _ => rfl

/-- C6: parseAddr maps http://host to host:80 with insecure credentials,
https://host to host:443 with TLS, keeps an explicit port, and rejects
every other scheme with a configuration error naming it. -/
theorem parseAddr_spec :
    parseAddr "http://host" = .ok ("host:80", .insecure) ∧
    parseAddr "https://host" = .ok ("host:443", .tls) ∧
    parseAddr "http://host:9000" = .ok ("host:9000", .insecure) ∧
    parseAddr "ftp://host" = .error (.msg ("unhandled schema " ++ goQuote "ftp")) ∧
    (∀ u : GoURL, u.scheme ≠ "http" → u.scheme ≠ "https" →
      parseAddrURL u = .error (.msg ("unhandled schema " ++ goQuote u.scheme))) ∧
    (∀ u : GoURL, u.port ≠ "" → u.scheme = "http" →
      parseAddrURL u = .ok (u.hostname ++ ":" ++ u.port, TransportCred.insecure)) := by
  refine ⟨by decide, by decide, by decide, by decide, ?_, ?_⟩
  · intro u h1 h2
    simp [parseAddrURL, h1, h2]
  · intro u h1 h2
    simp [parseAddrURL, h1, h2]

/-- Witness for C6's universally quantified parts. -/
theorem parseAddr_spec_witness :
    parseAddrURL ⟨"ftp", "host", ""⟩
      = .error (.msg ("unhandled schema " ++ goQuote "ftp")) ∧
    parseAddrURL ⟨"http", "h", "9000"⟩ = .ok ("h" ++ ":" ++ "9000", TransportCred.insecure) :=
  ⟨parseAddr_spec.2.2.2.2.1 ⟨"ftp", "host", ""⟩ (by decide) (by decide),
   parseAddr_spec.2.2.2.2.2 ⟨"http", "h", "9000"⟩ (by decide) rfl⟩

/-- Helper: the last element of l ++ [a] is a. -/
theorem lastConcat {α : Type} (a : α) : ∀ l : List α, (l ++ [a]).getLast? = some a := by
  intro l
  induction l with
  | nil => rfl
  | cons b t ih =>
    cases ht : t ++ [a] with
    | nil => exact absurd ht (by simp)
    | cons c cs =>
      rw [List.cons_append, ht, List.getLast?_cons_cons, ← ht, ih]

/-- Helper: drainReader only ever appends row operations to the trace. -/
theorem drainReader_appends : ∀ (batches : List ArrowRecord) (trace : List TableOp)
    (hdr : List String) (total : Nat),
    ∃ ops, (drainReader batches trace hdr total).1 = trace ++ ops ∧
      ∀ op ∈ ops, ∃ row, op = TableOp.append row := by
  intro batches
  induction batches with
  | nil =>
    intro t hd n
    exact ⟨[], by simp [drainReader], by simp⟩
  | cons record rest ih =>
    intro t hd n
    cases hpr : (printRecord record).2 with
    | some e =>
      refine ⟨(printRecord record).1.map TableOp.append, ?_, ?_⟩
      · simp [drainReader, hpr]
      · intro op hop
        rcases List.mem_map.mp hop with ⟨row, _, h2⟩
        exact ⟨row, h2.symm⟩
    | none =>
      obtain ⟨ops, heq, hall⟩ := ih (t ++ (printRecord record).1.map TableOp.append)
        (getHeader record) (n + record.numRows)
      refine ⟨(printRecord record).1.map TableOp.append ++ ops, ?_, ?_⟩
      · simp only [drainReader, hpr]
        rw [heq, List.append_assoc]
      · intro op hop
        rcases List.mem_append.mp hop with h1 | h2
        · rcases List.mem_map.mp h1 with ⟨row, _, h3⟩
          exact ⟨row, h3.symm⟩
        · exact hall op h2

/-- Helper: the trace finishTable produces. -/
theorem finishTable_trace (height : Int) (t : List TableOp) (hdr : List String)
    (total : Nat) (dur : Int) (opened drained : Nat) :
    (finishTable height t hdr total dur opened drained).trace
      = t ++ ([TableOp.setHeader hdr] ++
        (if (total : Int) + 4 ≥ height then [TableOp.setFooter hdr] else []) ++
        [TableOp.render]) := rfl

/-- Helper: printInfoLoop renders exactly once, as the last table call, on
every exit path, provided the starting trace has no render yet. -/
theorem printInfoLoop_render_once (height : Int) : ∀ (eps : List FlightEndpoint)
    (trace : List TableOp) (hdr : List String) (total : Nat) (dur : Int) (opened drained : Nat),
    TableOp.render ∉ trace →
    ((printInfoLoop height eps trace hdr total dur opened drained).trace.count TableOp.render = 1 ∧
     (printInfoLoop height eps trace hdr total dur opened drained).trace.getLast?
       = some TableOp.render) := by
  intro eps
  induction eps with
  | nil =>
    intro t hd n dur o d hmem
    rw [show printInfoLoop height [] t hd n dur o d = finishTable height t hd n dur o d from rfl,
      finishTable_trace]
    constructor
    · rw [List.count_append, List.count_eq_zero.mpr hmem]
      split <;> simp [List.count_append, List.count_cons]
    · rw [show [TableOp.setHeader hd] ++
        (if ((n : Int)) + 4 ≥ height then [TableOp.setFooter hd] else []) ++ [TableOp.render]
        = ([TableOp.setHeader hd] ++
          (if ((n : Int)) + 4 ≥ height then [TableOp.setFooter hd] else [])) ++ [TableOp.render]
        from by rw [List.append_assoc], ← List.append_assoc, lastConcat]
  | cons ep rest ih =>
    intro t hd n dur o d hmem
    cases hdg : ep.doGet with
    | error e =>
      simp only [printInfoLoop, hdg]
      constructor
      · rw [List.count_append, List.count_eq_zero.mpr hmem]
        simp [List.count_cons]
      · rw [lastConcat]
    | ok reader =>
      obtain ⟨ops, heq, hall⟩ := drainReader_appends reader.batches t hd n
      have hmem2 : TableOp.render ∉ (drainReader reader.batches t hd n).1 := by
        rw [heq]
        intro hc
        rcases List.mem_append.mp hc with h1 | h2
        · exact hmem h1
        · rcases hall _ h2 with ⟨row, h3⟩
          cases h3
      cases hde : (drainReader reader.batches t hd n).2.2.2 with
      | some e =>
        simp only [printInfoLoop, hdg, hde]
        constructor
        · rw [List.count_append, List.count_eq_zero.mpr hmem2]
          simp [List.count_cons]
        · rw [lastConcat]
      | none =>
        cases hte : reader.termErr with
        | none =>
          simp only [printInfoLoop, hdg, hde, hte]
          exact ih _ _ _ _ _ _ hmem2
        | some ge =>
          cases ge with
          | ioEOF =>
            simp only [printInfoLoop, hdg, hde, hte, finishTable_trace]
            constructor
            · rw [List.count_append, List.count_eq_zero.mpr hmem2]
              split <;> simp [List.count_append, List.count_cons]
            · rw [show ∀ F : List TableOp, [TableOp.setHeader (drainReader reader.batches t hd n).2.1]
                ++ F ++ [TableOp.render]
                = ([TableOp.setHeader (drainReader reader.batches t hd n).2.1] ++ F)
                  ++ [TableOp.render] from fun F => by rw [List.append_assoc],
                ← List.append_assoc, lastConcat]
          | msg s =>
            simp only [printInfoLoop, hdg, hde, hte]
            constructor
            · rw [List.count_append, List.count_eq_zero.mpr hmem2]
              simp [List.count_cons]
            · rw [lastConcat]

/-- C5: on every input (hence every exit path: DoGet failure, stream
error, rendering error, or success) printInfo calls Render exactly once
and as the very last table operation, so every appended row precedes the
final render. -/
theorem printInfo_render_exactly_once :
    ∀ (height : Int) (eps : List FlightEndpoint),
      (printInfo height eps).trace.count TableOp.render = 1 ∧
      (printInfo height eps).trace.getLast? = some TableOp.render :=
  fun height eps => printInfoLoop_render_once height eps [] [] 0 0 0 0 (by simp)

/-- Helper: a trace containing no SetFooter has hasFooter false. -/
theorem hasFooter_false_of_none (t : List TableOp) (h : ∀ x, TableOp.setFooter x ∉ t) :
    hasFooter t = false := by
  unfold hasFooter
  rw [List.any_eq_false]
  intro op hop
  cases op with
  | setFooter x => exact absurd hop (h x)
  | append r => simp [TableOp.isSetFooter]
  | setHeader x => simp [TableOp.isSetFooter]
  | render => simp [TableOp.isSetFooter]

/-- Helper: the same fact, stated on the underlying any. -/
theorem any_isSetFooter_false (t : List TableOp) (h : ∀ x, TableOp.setFooter x ∉ t) :
    t.any TableOp.isSetFooter = false :=
  hasFooter_false_of_none t h

/-- Helper: finishTable sets the footer exactly when totalRows + 4 reaches
the terminal height. -/
theorem hasFooter_finishTable (height : Int) (t : List TableOp) (hdr : List String)
    (total : Nat) (dur : Int) (opened drained : Nat) (hnf : ∀ x, TableOp.setFooter x ∉ t) :
    hasFooter (finishTable height t hdr total dur opened drained).trace
      = decide (((total : Int)) + 4 ≥ height) := by
  have ht : t.any TableOp.isSetFooter = false := hasFooter_false_of_none t hnf
  rw [finishTable_trace]
  unfold hasFooter
  by_cases hc : ((total : Int)) + 4 ≥ height
  · simp [hc, List.any_append, TableOp.isSetFooter, ht]
  · simp [hc, List.any_append, TableOp.isSetFooter, ht]

/-- Helper: footer discipline of printInfoLoop: when it succeeds the
footer is set iff totalRows + 4 ≥ height, and when it fails no footer was
ever set, provided the incoming trace has none. -/
theorem printInfoLoop_footer (height : Int) : ∀ (eps : List FlightEndpoint)
    (trace : List TableOp) (hdr : List String) (total : Nat) (dur : Int) (opened drained : Nat),
    (∀ x, TableOp.setFooter x ∉ trace) →
    (((printInfoLoop height eps trace hdr total dur opened drained).err = none →
      (hasFooter (printInfoLoop height eps trace hdr total dur opened drained).trace = true ↔
        ((printInfoLoop height eps trace hdr total dur opened drained).totalRows : Int) + 4
          ≥ height)) ∧
     ((printInfoLoop height eps trace hdr total dur opened drained).err ≠ none →
      hasFooter (printInfoLoop height eps trace hdr total dur opened drained).trace = false)) := by
  intro eps
  induction eps with
  | nil =>
    intro t hd n dur o d hnf
    constructor
    · intro _
      rw [show printInfoLoop height [] t hd n dur o d = finishTable height t hd n dur o d from rfl,
        hasFooter_finishTable height t hd n dur o d hnf]
      simp only [decide_eq_true_eq]
      exact Iff.rfl
    · intro hne
      exact absurd rfl hne
  | cons ep rest ih =>
    intro t hd n dur o d hnf
    cases hdg : ep.doGet with
    | error e =>
      simp only [printInfoLoop, hdg]
      constructor
      · intro h
        exact absurd h (by simp)
      · intro _
        unfold hasFooter
        rw [List.any_append, any_isSetFooter_false t hnf]
        simp [TableOp.isSetFooter]
    | ok reader =>
      obtain ⟨ops, heq, hall⟩ := drainReader_appends reader.batches t hd n
      have hnf2 : ∀ x, TableOp.setFooter x ∉ (drainReader reader.batches t hd n).1 := by
        intro x hc
        rw [heq] at hc
        rcases List.mem_append.mp hc with h1 | h2
        · exact hnf x h1
        · rcases hall _ h2 with ⟨row, h3⟩
          cases h3
      cases hde : (drainReader reader.batches t hd n).2.2.2 with
      | some e =>
        simp only [printInfoLoop, hdg, hde]
        constructor
        · intro h
          exact absurd h (by simp)
        · intro _
          unfold hasFooter
          rw [List.any_append, any_isSetFooter_false _ hnf2]
          simp [TableOp.isSetFooter]
      | none =>
        cases hte : reader.termErr with
        | none =>
          simp only [printInfoLoop, hdg, hde, hte]
          exact ih _ _ _ _ _ _ hnf2
        | some ge =>
          cases ge with
          | ioEOF =>
            simp only [printInfoLoop, hdg, hde, hte]
            constructor
            · intro _
              rw [hasFooter_finishTable height _ _ _ _ _ _ hnf2]
              simp only [decide_eq_true_eq]
              exact Iff.rfl
            · intro hne
              exact absurd rfl hne
          | msg s =>
            simp only [printInfoLoop, hdg, hde, hte]
            constructor
            · intro h
              exact absurd h (by simp)
            · intro _
              unfold hasFooter
              rw [List.any_append, any_isSetFooter_false _ hnf2]
              simp [TableOp.isSetFooter]

/-- C7: on success the footer (a duplicate of the header) is set exactly
when totalRows + 4 ≥ terminal height (footer shown at equality), and a
failed printInfo never set a footer. -/
theorem printInfo_footer_boundary :
    ∀ (height : Int) (eps : List FlightEndpoint),
      ((printInfo height eps).err = none →
        (hasFooter (printInfo height eps).trace = true ↔
          ((printInfo height eps).totalRows : Int) + 4 ≥ height)) ∧
      ((printInfo height eps).err ≠ none → hasFooter (printInfo height eps).trace = false) :=
  fun height eps => printInfoLoop_footer height eps [] [] 0 0 0 0 (by simp)

/-- Witness for C7 at the equality boundary: one row, height 5 shows the
footer (1 + 4 ≥ 5); height 6 hides it. -/
theorem printInfo_footer_boundary_witness :
    hasFooter (printInfo 5 [⟨.ok ⟨[⟨1, [("a", .boolean [some true])]⟩], none⟩, 0⟩]).trace
      = true ∧
    hasFooter (printInfo 6 [⟨.ok ⟨[⟨1, [("a", .boolean [some true])]⟩], none⟩, 0⟩]).trace
      = false := by
  constructor
  · exact ((printInfo_footer_boundary 5
      [⟨.ok ⟨[⟨1, [("a", .boolean [some true])]⟩], none⟩, 0⟩]).1 (by decide)).mpr (by decide)
  · have h2 := (printInfo_footer_boundary 6
      [⟨.ok ⟨[⟨1, [("a", .boolean [some true])]⟩], none⟩, 0⟩]).1 (by decide)
    cases hfb : hasFooter (printInfo 6
      [⟨.ok ⟨[⟨1, [("a", .boolean [some true])]⟩], none⟩, 0⟩]).trace
    · rfl
    · exact absurd (h2.mp hfb) (by decide)

/-- C10: the terminal-size error is discarded; for any non-positive
reported height (0 as well as the -1 the library reports on failure) the
footer condition always holds, so a successful printInfo always shows the
footer when the terminal height is unknown. -/
theorem printInfo_footer_when_height_unknown :
    ∀ (height : Int) (eps : List FlightEndpoint), height ≤ 0 →
      (printInfo height eps).err = none →
      hasFooter (printInfo height eps).trace = true := by
  intro height eps hh hok
  have h1 := (printInfoLoop_footer height eps [] [] 0 0 0 0 (by simp)).1 hok
  refine h1.mpr ?_
  have : (0 : Int) ≤ ((printInfo height eps).totalRows : Int) := Int.ofNat_nonneg _
  omega

/-- Witness for C10 at height 0 with no endpoints. -/
theorem printInfo_footer_when_height_unknown_witness :
    hasFooter (printInfo 0 []).trace = true :=
  printInfo_footer_when_height_unknown 0 [] (by decide) (by decide)

/-- The last element of a list, or d when the list is empty (the value a
variable assigned once per loop iteration holds after the loop). -/
def lastOr {α : Type} (d : α) : List α → α
  | [] => d
  | a :: rest => lastOr a rest

/-- Helper: lastOr distributes over append. -/
theorem lastOr_append {α : Type} : ∀ (l1 l2 : List α) (d : α),
    lastOr d (l1 ++ l2) = lastOr (lastOr d l1) l2 := by
  intro l1
  induction l1 with
  | nil => intro l2 d; rfl
  | cons a t ih => intro l2 d; exact ih l2 a

/-- Helper: when every record renders, drainReader reports no error and
leaves the header at the last batch's column names. -/
theorem drainReader_clean : ∀ (batches : List ArrowRecord),
    (∀ record ∈ batches, (printRecord record).2 = none) →
    ∀ (trace : List TableOp) (hdr : List String) (total : Nat),
      (drainReader batches trace hdr total).2.2.2 = none ∧
      (drainReader batches trace hdr total).2.1 = lastOr hdr (batches.map getHeader) := by
  intro batches
  induction batches with
  | nil => intro _ t hd n; exact ⟨rfl, rfl⟩
  | cons record rest ih =>
    intro h t hd n
    have h1 : (printRecord record).2 = none := h record (by simp)
    have h2 : ∀ r ∈ rest, (printRecord r).2 = none := fun r hr => h r (by simp [hr])
    simp only [drainReader, h1]
    obtain ⟨ha, hb⟩ := ih h2 (t ++ (printRecord record).1.map TableOp.append)
      (getHeader record) (n + record.numRows)
    exact ⟨ha, by rw [hb]; rfl⟩

/-- Helper: on all-clean endpoints printInfoLoop succeeds, opens and
drains every endpoint, sets the header to the last batch seen, and puts
that SetHeader call in the trace. -/
theorem printInfoLoop_clean (height : Int) : ∀ (eps : List FlightEndpoint),
    (∀ ep ∈ eps, cleanEndpoint ep) →
    ∀ (trace : List TableOp) (hdr : List String) (total : Nat) (dur : Int) (opened drained : Nat),
      (printInfoLoop height eps trace hdr total dur opened drained).err = none ∧
      (printInfoLoop height eps trace hdr total dur opened drained).header
        = lastOr hdr (((eps.map endpointBatches).flatten).map getHeader) ∧
      (printInfoLoop height eps trace hdr total dur opened drained).opened
        = opened + eps.length ∧
      (printInfoLoop height eps trace hdr total dur opened drained).drained
        = drained + eps.length ∧
      TableOp.setHeader ((printInfoLoop height eps trace hdr total dur opened drained).header)
        ∈ (printInfoLoop height eps trace hdr total dur opened drained).trace := by
  intro eps
  induction eps with
  | nil =>
    intro _ t hd n dur o d
    refine ⟨rfl, rfl, rfl, rfl, ?_⟩
    show TableOp.setHeader hd ∈ t ++ ([TableOp.setHeader hd] ++
      (if ((n : Int)) + 4 ≥ height then [TableOp.setFooter hd] else []) ++ [TableOp.render])
    simp
  | cons ep rest ih =>
    intro h t hd n dur o d
    obtain ⟨rd, hdg, hte, hrok⟩ := h ep (by simp)
    have h2 : ∀ e ∈ rest, cleanEndpoint e := fun e he => h e (by simp [he])
    obtain ⟨hde, hhd⟩ := drainReader_clean rd.batches hrok t hd n
    simp only [printInfoLoop, hdg, hde, hte]
    obtain ⟨ia, ib, ic, id2, ie⟩ := ih h2 (drainReader rd.batches t hd n).1
      (drainReader rd.batches t hd n).2.1 (drainReader rd.batches t hd n).2.2.1
      (dur + ep.doGetDur) (o + 1) (d + 1)
    refine ⟨ia, ?_, ?_, ?_, ie⟩
    · rw [ib, hhd]
      rw [show ((ep :: rest).map endpointBatches).flatten
          = rd.batches ++ (rest.map endpointBatches).flatten from by
            simp [endpointBatches, hdg],
        List.map_append, lastOr_append]
    · rw [ic]
      simp [List.length_cons]
      omega
    · rw [id2]
      simp [List.length_cons]
      omega

/-- Counterexample to C2 as stated: one endpoint with two non-empty
batches whose column names differ.  The first non-empty batch is named
["a"], yet the rendered header is ["b"] — printInfo overwrites the header
on every batch, so the header is the last batch's names. -/
theorem printInfo_header_first_batch_cex :
    (printInfo 100 [⟨.ok ⟨[⟨1, [("a", .boolean [some true])]⟩,
        ⟨1, [("b", .boolean [some false])]⟩], none⟩, 0⟩]).err = none ∧
    (⟨1, [("a", ArrowColumn.boolean [some true])]⟩ : ArrowRecord).numRows ≠ 0 ∧
    getHeader ⟨1, [("a", .boolean [some true])]⟩ = ["a"] ∧
    (printInfo 100 [⟨.ok ⟨[⟨1, [("a", .boolean [some true])]⟩,
        ⟨1, [("b", .boolean [some false])]⟩], none⟩, 0⟩]).header = ["b"] ∧
    TableOp.setHeader ["b"] ∈ (printInfo 100 [⟨.ok ⟨[⟨1, [("a", .boolean [some true])]⟩,
        ⟨1, [("b", .boolean [some false])]⟩], none⟩, 0⟩]).trace ∧
    (["b"] : List String) ≠ ["a"] := by decide

/-- C2 (amended): for a successful run over clean endpoints, the printed
header equals the column names of the LAST record batch seen (empty
batches included, since the header is overwritten on every batch); when
no batches are seen the header is empty and the rendered table is empty. -/
theorem printInfo_header_last_batch :
    ∀ (height : Int) (eps : List FlightEndpoint), (∀ ep ∈ eps, cleanEndpoint ep) →
      (printInfo height eps).err = none ∧
      (printInfo height eps).header
        = lastOr [] (((eps.map endpointBatches).flatten).map getHeader) ∧
      TableOp.setHeader ((printInfo height eps).header) ∈ (printInfo height eps).trace := by
  intro height eps h
  obtain ⟨a, b, _, _, e⟩ := printInfoLoop_clean height eps h [] [] 0 0 0 0
  exact ⟨a, b, e⟩

/-- Witness for C2's amended theorem on a concrete two-batch endpoint. -/
theorem printInfo_header_last_batch_witness :
    (printInfo 100 [⟨.ok ⟨[⟨1, [("c", .boolean [some true])]⟩,
        ⟨1, [("d", .boolean [some false])]⟩], none⟩, 0⟩]).err = none ∧
    (printInfo 100 [⟨.ok ⟨[⟨1, [("c", .boolean [some true])]⟩,
        ⟨1, [("d", .boolean [some false])]⟩], none⟩, 0⟩]).header
      = lastOr [] ((([⟨.ok ⟨[⟨1, [("c", ArrowColumn.boolean [some true])]⟩,
          ⟨1, [("d", ArrowColumn.boolean [some false])]⟩], none⟩,
          (0 : Int)⟩] : List FlightEndpoint).map endpointBatches).flatten.map getHeader) := by
  have h := printInfo_header_last_batch 100
    [⟨.ok ⟨[⟨1, [("c", .boolean [some true])]⟩, ⟨1, [("d", .boolean [some false])]⟩], none⟩, 0⟩]
    (by
      intro ep hep
      simp only [List.mem_singleton] at hep
      subst hep
      exact ⟨⟨[⟨1, [("c", .boolean [some true])]⟩, ⟨1, [("d", .boolean [some false])]⟩], none⟩,
        rfl, rfl, by
          intro record hrec
          simp only [List.mem_cons, List.not_mem_nil, or_false] at hrec
          rcases hrec with rfl | rfl <;> decide⟩)
  exact ⟨h.1, h.2.1⟩

/-- Helper: renderText errors are always message errors, never io.EOF. -/
theorem renderText_error_msg (col : ArrowColumn) (row : Nat) (e : GoError)
    (h : renderText col row = .error e) : ∃ s, e = GoError.msg s := by
  cases col <;>
    exact renderCell_error_msg _ _ _
      (fun v e2 h2 => by cases h2 <;> exact ⟨_, rfl⟩) e h

/-- Helper: renderRow errors come from renderText, hence are messages. -/
theorem renderRow_error_msg : ∀ (fields : List (String × ArrowColumn)) (r : Nat) (e : GoError),
    renderRow fields r = .error e → ∃ s, e = GoError.msg s := by
  intro fields
  induction fields with
  | nil =>
    intro r e h
    exact absurd h (by simp [renderRow])
  | cons f rest ih =>
    intro r e h
    unfold renderRow at h
    cases hrt : renderText f.2 r with
    | error e2 =>
      rw [hrt] at h
      injection h with h2
      exact h2 ▸ renderText_error_msg f.2 r e2 hrt
    | ok sv =>
      rw [hrt] at h
      cases hrr : renderRow rest r with
      | error e2 =>
        rw [hrr] at h
        injection h with h2
        exact h2 ▸ ih r e2 hrr
      | ok rowv =>
        rw [hrr] at h
        exact absurd h (by simp)

/-- Helper: printRecord errors are messages. -/
theorem printRecordGo_error_msg (record : ArrowRecord) : ∀ (rs : List Nat) (e : GoError),
    (printRecordGo record rs).2 = some e → ∃ s, e = GoError.msg s := by
  intro rs
  induction rs with
  | nil =>
    intro e h
    exact absurd h (by simp [printRecordGo])
  | cons r rest ih =>
    intro e h
    unfold printRecordGo at h
    cases hrr : renderRow record.fields r with
    | error e2 =>
      rw [hrr] at h
      simp at h
      exact h ▸ renderRow_error_msg record.fields r e2 hrr
    | ok rowv =>
      rw [hrr] at h
      simp at h
      exact ih e h

/-- Helper: drainReader errors are rendering errors, hence messages. -/
theorem drainReader_error_msg : ∀ (batches : List ArrowRecord) (trace : List TableOp)
    (hdr : List String) (total : Nat) (e : GoError),
    (drainReader batches trace hdr total).2.2.2 = some e → ∃ s, e = GoError.msg s := by
  intro batches
  induction batches with
  | nil =>
    intro t hd n e h
    exact absurd h (by simp [drainReader])
  | cons record rest ih =>
    intro t hd n e h
    cases hpr : (printRecord record).2 with
    | some e2 =>
      simp only [drainReader, hpr] at h
      injection h with h2
      exact h2 ▸ printRecordGo_error_msg record (List.range record.numRows) e2 hpr
    | none =>
      simp only [drainReader, hpr] at h
      exact ih _ _ _ e h

/-- Helper: printInfoLoop never returns io.EOF as its error: a terminal
io.EOF breaks out of the loop instead, DoGet failures are wrapped in a
message, and rendering failures are messages. -/
theorem printInfoLoop_no_eof (height : Int) : ∀ (eps : List FlightEndpoint)
    (trace : List TableOp) (hdr : List String) (total : Nat) (dur : Int) (opened drained : Nat),
    (printInfoLoop height eps trace hdr total dur opened drained).err ≠ some GoError.ioEOF := by
  intro eps
  induction eps with
  | nil =>
    intro t hd n dur o d
    simp [printInfoLoop, finishTable]
  | cons ep rest ih =>
    intro t hd n dur o d
    cases hdg : ep.doGet with
    | error e => simp [printInfoLoop, hdg]
    | ok reader =>
      cases hde : (drainReader reader.batches t hd n).2.2.2 with
      | some e2 =>
        obtain ⟨s, rfl⟩ := drainReader_error_msg reader.batches t hd n e2 hde
        simp [printInfoLoop, hdg, hde]
      | none =>
        cases hte : reader.termErr with
        | none =>
          simp only [printInfoLoop, hdg, hde, hte]
          exact ih _ _ _ _ _ _
        | some ge =>
          cases ge with
          | ioEOF => simp [printInfoLoop, hdg, hde, hte, finishTable]
          | msg s => simp [printInfoLoop, hdg, hde, hte]

/-- Counterexample to C3 as stated: two endpoints, the first of whose
streams terminates with io.EOF.  printInfo returns success, but only one
of the two endpoints was ever opened and drained — the io.EOF `break`
leaves the whole endpoint loop, skipping the second endpoint. -/
theorem printInfo_eof_break_cex :
    (printInfo 100 [⟨.ok ⟨[], some GoError.ioEOF⟩, 0⟩, ⟨.ok ⟨[], none⟩, 0⟩]).err = none ∧
    (printInfo 100 [⟨.ok ⟨[], some GoError.ioEOF⟩, 0⟩, ⟨.ok ⟨[], none⟩, 0⟩]).opened = 1 ∧
    (printInfo 100 [⟨.ok ⟨[], some GoError.ioEOF⟩, 0⟩, ⟨.ok ⟨[], none⟩, 0⟩]).drained = 1 ∧
    ([⟨.ok ⟨[], some GoError.ioEOF⟩, 0⟩,
      (⟨.ok ⟨[], none⟩, 0⟩ : FlightEndpoint)] : List FlightEndpoint).length = 2 := by
  decide

/-- C3 (amended): printInfo opens and drains endpoints in order; a
terminal io.EOF is treated as success and is never the returned error,
and any other terminal stream error aborts the whole query with that
error — but on io.EOF the remaining endpoints are skipped (the loop
breaks), so every endpoint is drained before a successful return only
when every stream's terminal signal is nil. -/
theorem printInfo_eof_semantics :
    (∀ (height : Int) (eps : List FlightEndpoint),
      (printInfo height eps).err ≠ some GoError.ioEOF) ∧
    (∀ (height : Int) (eps : List FlightEndpoint), (∀ ep ∈ eps, cleanEndpoint ep) →
      (printInfo height eps).err = none ∧
      (printInfo height eps).opened = eps.length ∧
      (printInfo height eps).drained = eps.length) ∧
    (∀ (height dur : Int) (batches : List ArrowRecord) (s : String),
      (∀ record ∈ batches, (printRecord record).2 = none) →
      (printInfo height [⟨.ok ⟨batches, some (.msg s)⟩, dur⟩]).err = some (.msg s)) ∧
    (∀ (height dur : Int) (batches : List ArrowRecord),
      (∀ record ∈ batches, (printRecord record).2 = none) →
      (printInfo height [⟨.ok ⟨batches, some GoError.ioEOF⟩, dur⟩]).err = none ∧
      (printInfo height [⟨.ok ⟨batches, some GoError.ioEOF⟩, dur⟩]).drained = 1) := by
  refine ⟨?_, ?_, ?_, ?_⟩
  · intro height eps
    exact printInfoLoop_no_eof height eps [] [] 0 0 0 0
  · intro height eps h
    obtain ⟨a, _, c, d2, _⟩ := printInfoLoop_clean height eps h [] [] 0 0 0 0
    exact ⟨a, by unfold printInfo; rw [c]; exact Nat.zero_add _,
      by unfold printInfo; rw [d2]; exact Nat.zero_add _⟩
  · intro height dur batches s h
    obtain ⟨hde, _⟩ := drainReader_clean batches h [] [] 0
    simp only [printInfo, printInfoLoop, hde]
  · intro height dur batches h
    obtain ⟨hde, _⟩ := drainReader_clean batches h [] [] 0
    simp only [printInfo, printInfoLoop, hde]
    exact ⟨rfl, rfl⟩

/-- Witness for C3's amended theorem at concrete endpoints. -/
theorem printInfo_eof_semantics_witness :
    (printInfo 10 [⟨.ok ⟨[], none⟩, 0⟩]).err ≠ some GoError.ioEOF ∧
    ((printInfo 10 [⟨.ok ⟨[], none⟩, 0⟩]).err = none ∧
      (printInfo 10 [⟨.ok ⟨[], none⟩, 0⟩]).opened = 1 ∧
      (printInfo 10 [⟨.ok ⟨[], none⟩, 0⟩]).drained = 1) ∧
    (printInfo 10 [⟨.ok ⟨[], some (.msg "boom")⟩, 0⟩]).err = some (.msg "boom") ∧
    (printInfo 10 [⟨.ok ⟨[], some GoError.ioEOF⟩, 0⟩]).err = none := by
  refine ⟨printInfo_eof_semantics.1 10 [⟨.ok ⟨[], none⟩, 0⟩], ?_, ?_, ?_⟩
  · have h := printInfo_eof_semantics.2.1 10 [⟨.ok ⟨[], none⟩, 0⟩]
      (by
        intro ep hep
        simp only [List.mem_singleton] at hep
        subst hep
        exact ⟨⟨[], none⟩, rfl, rfl, by intro record hrec; simp at hrec⟩)
    exact ⟨h.1, h.2.1, h.2.2⟩
  · exact printInfo_eof_semantics.2.2.1 10 0 [] "boom" (by intro record hrec; simp at hrec)
  · exact (printInfo_eof_semantics.2.2.2 10 0 [] (by intro record hrec; simp at hrec)).1
